import Mathlib

/-!
Verification of the SimpleMCP Handler Execution Framework and bundling
config loader against its specification.

The data model (handler configurations, permissions, results) is embedded
from `src/mcp/core/types.ts`. The config loader (`loadConfig`,
`findConfigFile`, `mergeConfig`) is embedded from
`src/src/core/config-loader.ts`. The repository ships only the type
declarations of the framework (resolvers, permission guard, execution
engine); those operations are modelled from the specification, each marked
`Modelled from the spec:` in its doc comment.
-/

namespace SimpleMCP

/-! ## Data model, from `src/mcp/core/types.ts` -/

/-- HTTP method of an `HttpHandlerConfig` (`method ∈ {GET,POST,PUT,DELETE}`). -/
inductive HttpMethod
  | get
  | post
  | put
  | delete
deriving DecidableEq, Repr

/-- `InlineHandlerConfig`: `type: 'inline'; code: string; timeout?: number`. -/
structure InlineHandlerConfig where
  code : String
  timeout : Option Nat
deriving DecidableEq, Repr

/-- `FileHandlerConfig`: `type: 'file'; path: string; export?: string`
(`export` is a Lean keyword, rendered `exportName`). -/
structure FileHandlerConfig where
  path : String
  exportName : Option String
deriving DecidableEq, Repr

/-- `HttpHandlerConfig`: `type: 'http'; url; method; headers?; timeout?;
retries?; requestTransform?; responseTransform?`. -/
structure HttpHandlerConfig where
  url : String
  method : HttpMethod
  headers : List (String × String)
  timeout : Option Nat
  retries : Option Nat
  requestTransform : Option String
  responseTransform : Option String
deriving DecidableEq, Repr

/-- `RegistryHandlerConfig`: `type: 'registry'; name: string`. -/
structure RegistryHandlerConfig where
  name : String
deriving DecidableEq, Repr

/-- `HandlerConfig`: tagged union of the four variants, the tag being the
`type` discriminant. -/
inductive HandlerConfig
  | inline (cfg : InlineHandlerConfig)
  | file (cfg : FileHandlerConfig)
  | http (cfg : HttpHandlerConfig)
  | registry (cfg : RegistryHandlerConfig)
deriving DecidableEq, Repr

/-- `Permissions`: all four fields optional in the source
(`allowFileSystem?`, `allowNetwork?`, `allowedPaths?`, `allowedDomains?`). -/
structure Permissions where
  allowFileSystem : Option Bool
  allowNetwork : Option Bool
  allowedPaths : Option (List String)
  allowedDomains : Option (List String)
deriving DecidableEq, Repr

/-- One content item of a `HandlerResult`: `TextContent`, `ImageContent`,
`AudioContent` or `BinaryContent` (the binary-ish variants carry base64
`data` plus `mimeType`). -/
inductive ContentItem
  | text (text : String)
  | image (data mimeType : String)
  | audio (data mimeType : String)
  | binary (data mimeType : String)
deriving DecidableEq, Repr

/-- `HandlerError`: `code`, `message`, optional `stack`
(structured `details` are not inspected by any claim and are omitted). -/
structure HandlerError where
  code : String
  message : String
  stack : Option String
deriving DecidableEq, Repr

/-- `HandlerResult`: ordered `content`, optional non-fatal `errors`
(the optional free-form `metadata` record is not inspected by any claim). -/
structure HandlerResult where
  content : List ContentItem
  errors : Option (List HandlerError)
deriving DecidableEq, Repr

/-! ## Permission guard

`src/mcp/core/types.ts` declares the `Permissions` record; the guard
functions themselves are not in the shipped source. -/

/-- Modelled from the spec: `checkFileAccess(path, permissions) -> allow|deny`
(§4.1) — deny when `allowFileSystem` is explicitly false, or when
`allowedPaths` is present and `path` is not a member of it; absence of the
flag with no allow-list means not restricted. `true` = allow. -/
def checkFileAccess (path : String) (p : Permissions) : Bool :=
  if p.allowFileSystem = some false then false
  else
    match p.allowedPaths with
    | some paths => paths.contains path
    | none => true

/-- Modelled from the spec: `checkNetworkAccess(domain, permissions) ->
allow|deny` (§4.1) — deny when `allowNetwork` is explicitly false, or when
`allowedDomains` is present and `domain` is not a member of it. -/
def checkNetworkAccess (domain : String) (p : Permissions) : Bool :=
  if p.allowNetwork = some false then false
  else
    match p.allowedDomains with
    | some domains => domains.contains domain
    | none => true

/-! ## Resolver dispatch

`src/mcp/core/types.ts` declares the `HandlerResolver` interface
(`resolve`, `canResolve`); the four backend resolvers and the dispatch
that selects among them are not in the shipped source. -/

/-- The four registered backend resolvers (§2, §4.2–§4.5). -/
inductive ResolverKind
  | inlineResolver
  | fileResolver
  | httpResolver
  | registryResolver
deriving DecidableEq, Repr

/-- The error taxonomy of §7, plus the transient network failure class of
§4.4/§4.6. -/
inductive ErrorKind
  | permissionDenied
  | timeout
  | aborted
  | moduleLoadError
  | exportNotFound
  | transformError
  | handlerNotRegistered
  | unsupportedHandlerType
  | networkError
  | handlerFailure
deriving DecidableEq, Repr

/-- Modelled from the spec: each resolver's `canResolve(config)` predicate
matches the configuration's discriminant tag (§4.7, §8). -/
def canResolve : ResolverKind → HandlerConfig → Bool
  | .inlineResolver, .inline _ => true
  | .fileResolver, .file _ => true
  | .httpResolver, .http _ => true
  | .registryResolver, .registry _ => true
  | _, _ => false

/-- Modelled from the spec: the registered resolver set owned by Dispatch
(§2 item 4) — the four backend resolvers. -/
def registeredResolvers : List ResolverKind :=
  [.inlineResolver, .fileResolver, .httpResolver, .registryResolver]

/-- Modelled from the spec: `resolve(config)` selects the resolver whose
`canResolve(config)` matches; fails with `UnsupportedHandlerType` if no
resolver matches (§4.7). -/
def resolveDispatch (c : HandlerConfig) : Except ErrorKind ResolverKind :=
  match registeredResolvers.find? (fun rk => canResolve rk c) with
  | some rk => Except.ok rk
  | none => Except.error ErrorKind.unsupportedHandlerType

/-! ## Execution engine

`src/mcp/core/types.ts` declares `HandlerExecutionOptions`
(`timeout?`, `retries?`, `abortSignal?`); the engine itself is not in the
shipped source. Each attempt's interaction with the environment (the
backend call and the external signals racing against it) is modelled by an
`AttemptEnv`. -/

/-- Modelled from the spec: what the engine observes during one execution
attempt — whether the external abort signal was raised during the attempt,
the attempt's wall-clock duration in milliseconds, and the outcome the
handler itself would produce (§4.6, §5). -/
structure AttemptEnv where
  abortRaised : Bool
  duration : Nat
  result : Except ErrorKind HandlerResult

/-- Modelled from the spec: the failure classes the engine retries —
network failures and timeouts are idempotent-safe/transient; everything
else (resolution failures, semantic failures, abort) is terminal (§4.6, §7). -/
def isTransient : ErrorKind → Bool
  | .timeout => true
  | .networkError => true
  | _ => false

/-- Modelled from the spec: the resolution-failure classes, which are
terminal for the invocation and surfaced immediately (§7). -/
def isResolutionError : ErrorKind → Bool
  | .permissionDenied => true
  | .moduleLoadError => true
  | .handlerNotRegistered => true
  | .unsupportedHandlerType => true
  | _ => false

/-- Modelled from the spec: one execution attempt bounded by the per-attempt
`timeout`. The external abort signal immediately supersedes the timeout and
yields `Aborted` (§4.6c); otherwise exceeding `timeout` yields `Timeout`
(§4.6a); otherwise the handler's own outcome stands. -/
def runAttempt (timeout : Nat) (env : AttemptEnv) : Except ErrorKind HandlerResult :=
  if env.abortRaised then Except.error ErrorKind.aborted
  else if timeout < env.duration then Except.error ErrorKind.timeout
  else env.result

/-- Modelled from the spec: the engine's retry loop (§4.6b). The first
argument of the pair returned is the final outcome, the second the number
of attempts performed. Fuel is the number of attempts still allowed;
`envs n` describes the environment of the `n`-th remaining attempt. An
attempt that succeeds, fails non-transiently, or exhausts the fuel ends the
loop; a transient failure with fuel remaining is retried. -/
def engineGo (timeout : Nat) : Nat → (Nat → AttemptEnv) → Except ErrorKind HandlerResult × Nat
  | 0, _ => (Except.error ErrorKind.timeout, 0)
  | rem + 1, envs =>
    match runAttempt timeout (envs 0) with
    | Except.ok r => (Except.ok r, 1)
    | Except.error e =>
      if isTransient e && decide (0 < rem) then
        let p := engineGo timeout rem (fun j => envs (j + 1))
        (p.1, p.2 + 1)
      else (Except.error e, 1)

/-- Modelled from the spec: run a resolved handler under the engine with a
per-attempt `timeout` and a retry bound of `retries` additional attempts,
so `retries + 1` attempts in total (§4.4, §4.6). -/
def engineRun (timeout retries : Nat) (envs : Nat → AttemptEnv) :
    Except ErrorKind HandlerResult × Nat :=
  engineGo timeout (retries + 1) envs

/-- Modelled from the spec: a full invocation — resolution happens before
the retry loop, and a resolution failure is surfaced immediately with zero
execution attempts (§7). -/
def invokeHandler (resolution : Except ErrorKind Unit) (timeout retries : Nat)
    (envs : Nat → AttemptEnv) : Except ErrorKind HandlerResult × Nat :=
  match resolution with
  | Except.error e => (Except.error e, 0)
  | Except.ok _ => engineRun timeout retries envs

/-- Events observable at the system boundary during an invocation; the
wire-level network call of the HTTP backend is the one the claims inspect. -/
inductive Event
  | networkCall (attempt : Nat)
deriving DecidableEq, Repr

/-- Modelled from the spec: invocation of an HTTP-backed handler (§4.4,
§4.1, §8) — the backend invokes the permission guard on the target domain
before touching the network and fails with `PermissionDenied` without
attempting the call when denied; when allowed, the engine's retry loop
issues one wire-level call per attempt. -/
def httpInvoke (domain : String) (perms : Permissions) (timeout retries : Nat)
    (envs : Nat → AttemptEnv) : Except ErrorKind HandlerResult × List Event :=
  if checkNetworkAccess domain perms then
    let p := engineRun timeout retries envs
    (p.1, (List.range p.2).map Event.networkCall)
  else (Except.error ErrorKind.permissionDenied, [])

/-! ## Configuration defaults

The source records the defaults only in the field comments of
`src/mcp/core/types.ts` (`timeout?: number // default: 5000`,
`retries?: number // default: 0`); the code applying them is not in the
shipped source. -/

/-- Modelled from the spec: the execution timeout of an Inline handler,
defaulting to 5000 ms when the optional `timeout` is omitted (§3, §4.2). -/
def InlineHandlerConfig.effectiveTimeout (c : InlineHandlerConfig) : Nat :=
  c.timeout.getD 5000

/-- Modelled from the spec: the per-request timeout of an HTTP handler,
defaulting to 5000 ms when omitted (§3, §4.4). -/
def HttpHandlerConfig.effectiveTimeout (c : HttpHandlerConfig) : Nat :=
  c.timeout.getD 5000

/-- Modelled from the spec: the retry count of an HTTP handler, defaulting
to 0 when omitted (§3, §4.4). -/
def HttpHandlerConfig.effectiveRetries (c : HttpHandlerConfig) : Nat :=
  c.retries.getD 0

/-! ## Result serialization

No serializer ships in the source; `HandlerResult` values cross the
process boundary as JSON. -/

/-- A JSON value, the interchange form of serialized results. -/
inductive Json
  | str (s : String)
  | arr (xs : List Json)
  | obj (fields : List (String × Json))

/-- Modelled from the spec: serialize one content item to its JSON object
form, the `type` field carrying the discriminant (§3 HandlerResult). -/
def serializeContent : ContentItem → Json
  | .text t => .obj [("type", .str "text"), ("text", .str t)]
  | .image d m => .obj [("type", .str "image"), ("data", .str d), ("mimeType", .str m)]
  | .audio d m => .obj [("type", .str "audio"), ("data", .str d), ("mimeType", .str m)]
  | .binary d m => .obj [("type", .str "binary"), ("data", .str d), ("mimeType", .str m)]

/-- Modelled from the spec: parse one content item back from its JSON form. -/
def deserializeContent : Json → Option ContentItem
  | .obj fields =>
    match fields.lookup "type" with
    | some (.str "text") =>
      match fields.lookup "text" with
      | some (.str t) => some (.text t)
      | _ => none
    | some (.str "image") =>
      match fields.lookup "data", fields.lookup "mimeType" with
      | some (.str d), some (.str m) => some (.image d m)
      | _, _ => none
    | some (.str "audio") =>
      match fields.lookup "data", fields.lookup "mimeType" with
      | some (.str d), some (.str m) => some (.audio d m)
      | _, _ => none
    | some (.str "binary") =>
      match fields.lookup "data", fields.lookup "mimeType" with
      | some (.str d), some (.str m) => some (.binary d m)
      | _, _ => none
    | _ => none
  | _ => none

/-- Modelled from the spec: serialize one non-fatal handler error. -/
def serializeError (e : HandlerError) : Json :=
  .obj ([("code", .str e.code), ("message", .str e.message)] ++
    (match e.stack with
     | some s => [("stack", Json.str s)]
     | none => []))

/-- Modelled from the spec: parse one non-fatal handler error back. -/
def deserializeError : Json → Option HandlerError
  | .obj fields =>
    match fields.lookup "code", fields.lookup "message" with
    | some (.str c), some (.str m) =>
      match fields.lookup "stack" with
      | some (.str s) => some ⟨c, m, some s⟩
      | none => some ⟨c, m, none⟩
      | _ => none
    | _, _ => none
  | _ => none

/-- Modelled from the spec: serialize a `HandlerResult`, the ordered
`content` array first, the optional `errors` array only when present (§8
round-trip property). -/
def serializeResult (r : HandlerResult) : Json :=
  .obj ([("content", Json.arr (r.content.map serializeContent))] ++
    (match r.errors with
     | some es => [("errors", Json.arr (es.map serializeError))]
     | none => []))

/-- Modelled from the spec: parse a `HandlerResult` back from its JSON
form, preserving content ordering. -/
def deserializeResult : Json → Option HandlerResult
  | .obj fields =>
    match fields.lookup "content" with
    | some (.arr items) =>
      match items.mapM deserializeContent with
      | some content =>
        match fields.lookup "errors" with
        | some (.arr errItems) =>
          match errItems.mapM deserializeError with
          | some errs => some ⟨content, some errs⟩
          | none => none
        | none => some ⟨content, none⟩
        | _ => none
      | none => none
    | _ => none
  | _ => none

/-! ## Config loader, from `src/src/core/config-loader.ts`

The filesystem is abstracted as the predicate `fs : String → Bool`
standing for `existsSync`; Node's `path.join`/`path.resolve` are modelled
for already-normalized segments. -/

/-- JS truthiness of an optional string: `undefined` and `""` are falsy. -/
def jsTruthy : Option String → Bool
  | some s => !(s == "")
  | none => false

/-- JS `a || b` on optional strings: `b` when `a` is falsy. -/
def jsOr (a b : Option String) : Option String :=
  if jsTruthy a then a else b

/-- Node `path.join(a, b)` for normalized segments: `"."` when both are
empty, otherwise the non-empty segment, otherwise `a ++ "/" ++ b`. -/
def pathJoin (a b : String) : String :=
  if a = "" && b = "" then "."
  else if a = "" then b
  else if b = "" then a
  else a ++ "/" ++ b

/-- Node `path.resolve(cwd, p)` for normalized segments: `p` when
absolute, otherwise joined onto `cwd`. -/
def pathResolve (cwd p : String) : String :=
  if p.startsWith "/" then p else pathJoin cwd p

/-- The `output` section of `SimplyMCPConfig` (`dir?`, `filename?`,
`format?`); the merge logic never inspects format values, so formats are
kept as strings. -/
structure OutputConfig where
  dir : Option String
  filename : Option String
  format : Option String
deriving DecidableEq, Repr

/-- The `bundle` section of `SimplyMCPConfig` (`minify?`, `platform?`,
`target?`, `external?`, `sourcemap?`, `treeShake?`). -/
structure BundleSection where
  minify : Option Bool
  platform : Option String
  target : Option String
  external : Option (List String)
  sourcemap : Option Bool
  treeShake : Option Bool
deriving DecidableEq, Repr

/-- `SimplyMCPConfig`: the shape `mergeConfig` and `validateConfig` read
(`entry?`, `output?`, `bundle?`, `autoInstall?`). -/
structure SimplyMCPConfig where
  entry : Option String
  output : Option OutputConfig
  bundle : Option BundleSection
  autoInstall : Option Bool
deriving DecidableEq, Repr

/-- `BundleOptions` as populated by `mergeConfig`; the function-valued
callbacks (`onProgress`, `onError`) carry no merge logic beyond
presence-preservation and are omitted. -/
structure BundleOptions where
  entry : Option String
  output : Option String
  format : Option String
  minify : Option Bool
  platform : Option String
  target : Option String
  external : Option (List String)
  sourcemap : Option Bool
  autoInstall : Option Bool
  watch : Option Bool
  treeShake : Option Bool
  basePath : Option String
deriving DecidableEq, Repr

/-- `mergeConfig(config, cliOptions)`: CLI options take precedence over the
config file, field by field; the config-file output is the join of
`output.dir` and `output.filename` when both are truthy, otherwise
`dir || filename`. -/
def mergeConfig (config : Option SimplyMCPConfig) (cli : BundleOptions) : BundleOptions where
  entry :=
    match cli.entry with
    | some e => some e
    | none => config.bind SimplyMCPConfig.entry
  output :=
    match cli.output with
    | some o => some o
    | none =>
      match config.bind SimplyMCPConfig.output with
      | some oc =>
        if oc.dir.isSome || oc.filename.isSome then
          if jsTruthy oc.dir && jsTruthy oc.filename then
            some (pathJoin (oc.dir.getD "") (oc.filename.getD ""))
          else jsOr oc.dir oc.filename
        else none
      | none => none
  format :=
    match cli.format with
    | some f => some f
    | none => (config.bind SimplyMCPConfig.output).bind OutputConfig.format
  minify :=
    match cli.minify with
    | some m => some m
    | none => (config.bind SimplyMCPConfig.bundle).bind BundleSection.minify
  platform :=
    match cli.platform with
    | some p => some p
    | none => (config.bind SimplyMCPConfig.bundle).bind BundleSection.platform
  target :=
    match cli.target with
    | some t => some t
    | none => (config.bind SimplyMCPConfig.bundle).bind BundleSection.target
  external :=
    match cli.external with
    | some e => some e
    | none => (config.bind SimplyMCPConfig.bundle).bind BundleSection.external
  sourcemap :=
    match cli.sourcemap with
    | some s => some s
    | none => (config.bind SimplyMCPConfig.bundle).bind BundleSection.sourcemap
  autoInstall :=
    match cli.autoInstall with
    | some a => some a
    | none => config.bind SimplyMCPConfig.autoInstall
  watch := cli.watch
  treeShake := cli.treeShake
  basePath := cli.basePath

/-- The eight conventional candidate file names of `findConfigFile`, in
probe order. -/
def configCandidates : List String :=
  ["simplemcp.config.js",
   "simplemcp.config.mjs",
   "simplemcp.config.json",
   "simplymcp.config.js",
   "simplymcp.config.mjs",
   "simplymcp.config.json",
   ".simplemcprc.json",
   ".simplemcprc.js"]

/-- The probe loop of `findConfigFile`: the first candidate whose joined
path exists wins. -/
def findConfigFileGo (fs : String → Bool) (cwd : String) : List String → Option String
  | [] => none
  | c :: rest =>
    let candidatePath := pathJoin cwd c
    if fs candidatePath then some candidatePath
    else findConfigFileGo fs cwd rest

/-- `findConfigFile(cwd)`: probe the candidates in order, `null` when none
exists. -/
def findConfigFile (fs : String → Bool) (cwd : String) : Option String :=
  findConfigFileGo fs cwd configCandidates

/-- Outcome of `loadConfig` up to parsing: `parsed path` stands for
`parseConfig(path)` being invoked (parsing itself is I/O outside this
model), `noConfig` for the `null` return. -/
inductive LoadConfigResult
  | parsed (path : String)
  | noConfig
deriving DecidableEq, Repr

/-- `loadConfig(configPath?, cwd)`: the source selects the branch with the
JS-truthy test `configPath ? resolve(cwd, configPath) : findConfigFile(cwd)`,
so an undefined or empty `configPath` falls back to the candidate probe; a
truthy explicit path is resolved against `cwd` and must exist
(`Config file not found` otherwise); a probe miss returns `null`. -/
def loadConfig (fs : String → Bool) (configPath : Option String) (cwd : String) :
    Except String LoadConfigResult :=
  let configFile : Option String :=
    if jsTruthy configPath then configPath.map (pathResolve cwd)
    else findConfigFile fs cwd
  match configFile with
  | none => Except.ok LoadConfigResult.noConfig
  | some f =>
    if fs f then Except.ok (LoadConfigResult.parsed f)
    else Except.error ("Config file not found: " ++ f)

/-! ## Theorems -/

/-- C1: for every `HandlerConfig`, over the four tags inline, file, http,
registry, exactly one registered resolver's `canResolve` returns true (and
the other three return false); `resolve` selects that unique resolver, and
fails with `UnsupportedHandlerType` only when no resolver matches. -/
theorem dispatch_selects_unique_resolver (c : HandlerConfig) :
    (registeredResolvers.filter (fun rk => canResolve rk c)).length = 1 ∧
    (∃ rk, resolveDispatch c = Except.ok rk ∧ rk ∈ registeredResolvers ∧
      canResolve rk c = true ∧
      ∀ rk2, rk2 ∈ registeredResolvers → canResolve rk2 c = true → rk2 = rk) ∧
    (resolveDispatch c = Except.error ErrorKind.unsupportedHandlerType →
      ∀ rk, rk ∈ registeredResolvers → canResolve rk c = false) := by
  cases c <;>
    exact ⟨rfl,
      ⟨_, rfl, by simp [registeredResolvers], rfl,
        by intro rk2 hmem hcan; revert hcan; cases rk2 <;> simp [canResolve]⟩,
      fun h => Except.noConfusion h⟩

/-- Witness for C1 at a concrete input: a registry configuration is matched
by exactly one registered resolver. -/
theorem dispatch_selects_unique_resolver_witness :
    (registeredResolvers.filter
      (fun rk => canResolve rk (HandlerConfig.registry ⟨"greet"⟩))).length = 1 :=
  (dispatch_selects_unique_resolver (HandlerConfig.registry ⟨"greet"⟩)).1

/-- C4: `checkFileAccess` (resp. `checkNetworkAccess`) denies exactly when
the corresponding capability flag is explicitly false or the corresponding
allow-list is present and the target is not a member of it; when the flag
is absent and no allow-list is present, the check allows. (Both checks are
pure Lean functions, hence side-effect-free by construction.) -/
theorem guard_deny_characterization (path domain : String) (p : Permissions) :
    (checkFileAccess path p = false ↔
      p.allowFileSystem = some false ∨
        ∃ paths, p.allowedPaths = some paths ∧ path ∉ paths) ∧
    (checkNetworkAccess domain p = false ↔
      p.allowNetwork = some false ∨
        ∃ domains, p.allowedDomains = some domains ∧ domain ∉ domains) ∧
    (p.allowFileSystem ≠ some false → p.allowedPaths = none →
      checkFileAccess path p = true) ∧
    (p.allowNetwork ≠ some false → p.allowedDomains = none →
      checkNetworkAccess domain p = true) := by
  refine ⟨?_, ?_, ?_, ?_⟩
  · unfold checkFileAccess
    split
    · rename_i h; simp [h]
    · rename_i h
      cases hp : p.allowedPaths with
      | none => simp [h, hp]
      | some ps => simp [h, hp, List.contains, List.elem_iff]
  · unfold checkNetworkAccess
    split
    · rename_i h; simp [h]
    · rename_i h
      cases hd : p.allowedDomains with
      | none => simp [h, hd]
      | some ds => simp [h, hd, List.contains, List.elem_iff]
  · intro h1 h2
    unfold checkFileAccess
    simp [h1, h2]
  · intro h1 h2
    unfold checkNetworkAccess
    simp [h1, h2]

/-- Witness for C4 at a concrete input: all four fields absent, so neither
flag is explicitly false and no allow-list is present, and both checks
allow. -/
theorem guard_deny_characterization_witness :
    checkFileAccess "/tmp/a" ⟨none, none, none, none⟩ = true ∧
    checkNetworkAccess "example.com" ⟨none, none, none, none⟩ = true :=
  ⟨(guard_deny_characterization "/tmp/a" "example.com"
      ⟨none, none, none, none⟩).2.2.1 (by decide) rfl,
   (guard_deny_characterization "/tmp/a" "example.com"
      ⟨none, none, none, none⟩).2.2.2 (by decide) rfl⟩

/-- C7: with the optional `timeout` omitted, an Inline handler's execution
timeout is 5000 ms, and an Http handler's per-request timeout is 5000 ms
with a retry count of 0 when `retries` is also omitted. -/
theorem omitted_fields_take_defaults (ic : InlineHandlerConfig) (hc : HttpHandlerConfig)
    (hit : ic.timeout = none) (hht : hc.timeout = none) (hhr : hc.retries = none) :
    ic.effectiveTimeout = 5000 ∧
    hc.effectiveTimeout = 5000 ∧ hc.effectiveRetries = 0 := by
  simp [InlineHandlerConfig.effectiveTimeout, HttpHandlerConfig.effectiveTimeout,
    HttpHandlerConfig.effectiveRetries, hit, hht, hhr]

/-- Witness for C7 at concrete configurations with the optional fields
omitted. -/
theorem omitted_fields_take_defaults_witness :
    InlineHandlerConfig.effectiveTimeout ⟨"return 1", none⟩ = 5000 ∧
    HttpHandlerConfig.effectiveTimeout
      ⟨"https://api.example.com", HttpMethod.get, [], none, none, none, none⟩ = 5000 ∧
    HttpHandlerConfig.effectiveRetries
      ⟨"https://api.example.com", HttpMethod.get, [], none, none, none, none⟩ = 0 :=
  omitted_fields_take_defaults ⟨"return 1", none⟩
    ⟨"https://api.example.com", HttpMethod.get, [], none, none, none, none⟩ rfl rfl rfl

/-- One-step unfolding of the retry loop with at least one attempt of fuel. -/
theorem engineGo_succ (timeout rem : Nat) (envs : Nat → AttemptEnv) :
    engineGo timeout (rem + 1) envs =
      match runAttempt timeout (envs 0) with
      | Except.ok r => (Except.ok r, 1)
      | Except.error e =>
        if isTransient e && decide (0 < rem) then
          ((engineGo timeout rem fun j => envs (j + 1)).1,
           (engineGo timeout rem fun j => envs (j + 1)).2 + 1)
        else (Except.error e, 1) := rfl

/-- A run whose every attempt fails with the same transient error exhausts
its fuel: all `n + 1` allowed attempts are performed and the error is then
surfaced. -/
theorem engineGo_all_transient (timeout : Nat) (e : ErrorKind) (he : isTransient e = true) :
    ∀ (n : Nat) (envs : Nat → AttemptEnv),
      (∀ i, runAttempt timeout (envs i) = Except.error e) →
      engineGo timeout (n + 1) envs = (Except.error e, n + 1) := by
  intro n
  induction n with
  | zero =>
    intro envs h
    rw [engineGo_succ, h 0]
    simp
  | succ m ih =>
    intro envs h
    have hrec := ih (fun j => envs (j + 1)) (fun i => h (i + 1))
    rw [engineGo_succ, h 0]
    simp [he, hrec]

/-- C2: an HTTP-style execution with `retries = 2` against a backend whose
first two attempts fail at the network level and whose third succeeds
returns success after exactly 3 attempts; with `retries = 0` it fails
after exactly 1 attempt; and the timeout bound applies to each attempt's
own duration, not cumulatively (here the three durations are each within
the bound while nothing constrains their sum). -/
theorem http_retry_attempt_counts (timeout : Nat) (r : HandlerResult)
    (envs : Nat → AttemptEnv) (d0 d1 d2 : Nat)
    (h0 : envs 0 = ⟨false, d0, Except.error ErrorKind.networkError⟩)
    (h1 : envs 1 = ⟨false, d1, Except.error ErrorKind.networkError⟩)
    (h2 : envs 2 = ⟨false, d2, Except.ok r⟩)
    (hd0 : d0 ≤ timeout) (hd1 : d1 ≤ timeout) (hd2 : d2 ≤ timeout) :
    engineRun timeout 2 envs = (Except.ok r, 3) ∧
    engineRun timeout 0 envs = (Except.error ErrorKind.networkError, 1) ∧
    (∀ env : AttemptEnv, env.abortRaised = false →
      env.result = Except.error ErrorKind.networkError →
      (runAttempt timeout env = Except.error ErrorKind.timeout ↔
        timeout < env.duration)) := by
  have r0 : runAttempt timeout (envs 0) = Except.error ErrorKind.networkError := by
    simp [runAttempt, h0, Nat.not_lt.mpr hd0]
  have r1 : runAttempt timeout (envs 1) = Except.error ErrorKind.networkError := by
    simp [runAttempt, h1, Nat.not_lt.mpr hd1]
  have r2 : runAttempt timeout (envs 2) = Except.ok r := by
    simp [runAttempt, h2, Nat.not_lt.mpr hd2]
  refine ⟨?_, ?_, ?_⟩
  · simp [engineRun, engineGo, r0, r1, r2, isTransient]
  · simp [engineRun, engineGo, r0]
  · intro env ha hres
    rcases Nat.lt_or_ge timeout env.duration with hlt | hge
    · simp [runAttempt, ha, hlt]
    · simp [runAttempt, ha, hres, Nat.not_lt.mpr hge, Nat.not_lt_of_le hge]

/-- Witness for C2 at concrete inputs: per-attempt durations of 3000 ms
against a 5000 ms bound (their 9000 ms sum exceeds the bound), two network
failures then a success. -/
theorem http_retry_attempt_counts_witness :
    engineRun 5000 2
        (fun i => if i = 0 then ⟨false, 3000, Except.error ErrorKind.networkError⟩
          else if i = 1 then ⟨false, 3000, Except.error ErrorKind.networkError⟩
          else ⟨false, 3000, Except.ok ⟨[ContentItem.text "resp"], none⟩⟩) =
      (Except.ok ⟨[ContentItem.text "resp"], none⟩, 3) ∧
    engineRun 5000 0
        (fun i => if i = 0 then ⟨false, 3000, Except.error ErrorKind.networkError⟩
          else if i = 1 then ⟨false, 3000, Except.error ErrorKind.networkError⟩
          else ⟨false, 3000, Except.ok ⟨[ContentItem.text "resp"], none⟩⟩) =
      (Except.error ErrorKind.networkError, 1) := by
  have h := http_retry_attempt_counts 5000 ⟨[ContentItem.text "resp"], none⟩
    (fun i => if i = 0 then ⟨false, 3000, Except.error ErrorKind.networkError⟩
      else if i = 1 then ⟨false, 3000, Except.error ErrorKind.networkError⟩
      else ⟨false, 3000, Except.ok ⟨[ContentItem.text "resp"], none⟩⟩)
    3000 3000 3000 rfl rfl rfl (by decide) (by decide) (by decide)
  exact ⟨h.1, h.2.1⟩

/-- C3: an invocation of an Http-backed handler whose permissions set
`allowNetwork = false` fails with `PermissionDenied` and its event trace is
empty — no wire-level network call is attempted before (or after) the
failure, whatever the backend, timeout, or retry configuration. -/
theorem http_denied_before_network (domain : String) (perms : Permissions)
    (timeout retries : Nat) (envs : Nat → AttemptEnv)
    (h : perms.allowNetwork = some false) :
    httpInvoke domain perms timeout retries envs =
      (Except.error ErrorKind.permissionDenied, []) ∧
    (∀ i, Event.networkCall i ∉ (httpInvoke domain perms timeout retries envs).2) := by
  have hc : checkNetworkAccess domain perms = false := by
    unfold checkNetworkAccess
    simp [h]
  constructor
  · simp [httpInvoke, hc]
  · intro i
    simp [httpInvoke, hc]

/-- Witness for C3 at a concrete input: `allowNetwork = some false`, a
backend that would answer successfully, two retries allowed — still
`PermissionDenied` with no network call. -/
theorem http_denied_before_network_witness :
    httpInvoke "api.example.com" ⟨none, some false, none, none⟩ 5000 2
        (fun _ => ⟨false, 10, Except.ok ⟨[ContentItem.text "resp"], none⟩⟩) =
      (Except.error ErrorKind.permissionDenied, []) :=
  (http_denied_before_network "api.example.com" ⟨none, some false, none, none⟩ 5000 2
    (fun _ => ⟨false, 10, Except.ok ⟨[ContentItem.text "resp"], none⟩⟩) rfl).1

/-- C5: the engine never retries a resolution failure (it is surfaced
immediately with zero execution attempts); a successful first call is
never retried; a non-transient (semantic/validation) failure from the
handler is never retried; and a persistently transient failure is retried
up to the configured bound — `retries + 1` attempts — then surfaced. -/
theorem engine_retry_policy (timeout retries : Nat) (e2 e3 : ErrorKind)
    (r : HandlerResult) (envsA envsB envsC : Nat → AttemptEnv)
    (hA : runAttempt timeout (envsA 0) = Except.ok r)
    (hB : runAttempt timeout (envsB 0) = Except.error e2)
    (hB2 : isTransient e2 = false)
    (hC : ∀ i, runAttempt timeout (envsC i) = Except.error e3)
    (hC2 : isTransient e3 = true) :
    (∀ e1, isResolutionError e1 = true →
      invokeHandler (Except.error e1) timeout retries envsA = (Except.error e1, 0)) ∧
    engineRun timeout retries envsA = (Except.ok r, 1) ∧
    engineRun timeout retries envsB = (Except.error e2, 1) ∧
    engineRun timeout retries envsC = (Except.error e3, retries + 1) := by
  refine ⟨fun e1 _ => rfl, ?_, ?_, engineGo_all_transient timeout e3 hC2 retries envsC hC⟩
  · simp [engineRun, engineGo, hA]
  · simp [engineRun, engineGo, hB, hB2]

/-- Witness for C5 at concrete inputs: a `PermissionDenied` resolution
failure, an immediately successful run, a semantic `handlerFailure`, and a
persistent network failure under `retries = 2`. -/
theorem engine_retry_policy_witness :
    invokeHandler (Except.error ErrorKind.permissionDenied) 5000 2
        (fun _ => ⟨false, 10, Except.ok ⟨[ContentItem.text "resp"], none⟩⟩) =
      (Except.error ErrorKind.permissionDenied, 0) ∧
    engineRun 5000 2 (fun _ => ⟨false, 10, Except.ok ⟨[ContentItem.text "resp"], none⟩⟩) =
      (Except.ok ⟨[ContentItem.text "resp"], none⟩, 1) ∧
    engineRun 5000 2 (fun _ => ⟨false, 10, Except.error ErrorKind.handlerFailure⟩) =
      (Except.error ErrorKind.handlerFailure, 1) ∧
    engineRun 5000 2 (fun _ => ⟨false, 10, Except.error ErrorKind.networkError⟩) =
      (Except.error ErrorKind.networkError, 3) := by
  have h := engine_retry_policy 5000 2 ErrorKind.handlerFailure
    ErrorKind.networkError ⟨[ContentItem.text "resp"], none⟩
    (fun _ => ⟨false, 10, Except.ok ⟨[ContentItem.text "resp"], none⟩⟩)
    (fun _ => ⟨false, 10, Except.error ErrorKind.handlerFailure⟩)
    (fun _ => ⟨false, 10, Except.error ErrorKind.networkError⟩)
    rfl rfl rfl (fun _ => rfl) rfl
  exact ⟨h.1 ErrorKind.permissionDenied rfl, h.2.1, h.2.2.1, h.2.2.2⟩

/-- C6: an external abort signal observed during attempt `i` (after `i`
transient failures, with retries still pending) makes the outcome
`Aborted` after exactly `i + 1` attempts: abort supersedes the per-attempt
timeout — `runAttempt` yields `Aborted` whatever the attempt's duration,
in particular when the timeout has expired concurrently — and supersedes
the pending retries, which are not performed. -/
theorem abort_supersedes_timeout_and_retry (i timeout retries : Nat)
    (envs : Nat → AttemptEnv) (hi : i ≤ retries)
    (hfail : ∀ j, j < i → runAttempt timeout (envs j) = Except.error ErrorKind.networkError)
    (habort : (envs i).abortRaised = true) :
    runAttempt timeout (envs i) = Except.error ErrorKind.aborted ∧
    engineRun timeout retries envs = (Except.error ErrorKind.aborted, i + 1) := by
  refine ⟨by simp [runAttempt, habort], ?_⟩
  induction i generalizing retries envs with
  | zero =>
    have h0 : runAttempt timeout (envs 0) = Except.error ErrorKind.aborted := by
      simp [runAttempt, habort]
    show engineGo timeout (retries + 1) envs = _
    rw [engineGo_succ, h0]
    simp [isTransient]
  | succ k ih =>
    cases retries with
    | zero => exact absurd hi (by omega)
    | succ m =>
      have h0 : runAttempt timeout (envs 0) = Except.error ErrorKind.networkError :=
        hfail 0 (Nat.succ_pos k)
      have hrec := ih m (fun j => envs (j + 1)) (Nat.le_of_succ_le_succ hi)
        (fun j hj => hfail (j + 1) (Nat.succ_lt_succ hj)) habort
      simp only [engineRun] at hrec
      show engineGo timeout (m + 1 + 1) envs = _
      rw [engineGo_succ, h0]
      simp [isTransient, hrec]

/-- Witness for C6 at a concrete input: one network failure, then an
attempt during which the abort signal is raised while its 9000 ms duration
has also exceeded the 5000 ms timeout; `retries = 2` would allow a third
attempt, yet the outcome is `Aborted` after 2 attempts. -/
theorem abort_supersedes_timeout_and_retry_witness :
    engineRun 5000 2
        (fun j => if j = 0 then ⟨false, 1000, Except.error ErrorKind.networkError⟩
          else ⟨true, 9000, Except.error ErrorKind.timeout⟩) =
      (Except.error ErrorKind.aborted, 2) :=
  (abort_supersedes_timeout_and_retry 1 5000 2
    (fun j => if j = 0 then ⟨false, 1000, Except.error ErrorKind.networkError⟩
      else ⟨true, 9000, Except.error ErrorKind.timeout⟩)
    (by decide)
    (by intro j hj; rw [Nat.lt_one_iff.mp hj]; rfl)
    rfl).2

/-- C8: the `HandlerResult` with content `[{type:"text", text:"ok"}]` and
no errors serializes and deserializes without loss, preserving the content
ordering. -/
theorem result_roundtrip_ok_text :
    deserializeResult (serializeResult ⟨[ContentItem.text "ok"], none⟩) =
      some ⟨[ContentItem.text "ok"], none⟩ ∧
    (deserializeResult (serializeResult ⟨[ContentItem.text "ok"], none⟩)).map
        HandlerResult.content = some [ContentItem.text "ok"] :=
  ⟨rfl, rfl⟩

/-- C9 (amended): `mergeConfig` gives CLI options precedence field by
field — for each of entry, output, format, minify, platform, target,
external, sourcemap and autoInstall the merged value equals the CLI value
whenever the CLI value is defined, and equals the config-file value only
when the CLI value is undefined; in particular, when the CLI output is
undefined and the config has both `output.dir` and `output.filename`
nonempty, the merged output is the path join of dir and filename. -/
theorem mergeConfig_cli_precedence
    (config : Option SimplyMCPConfig) (cli : BundleOptions)
    (c2 : SimplyMCPConfig) (oc : OutputConfig) (cli2 : BundleOptions) (d f : String)
    (hout : c2.output = some oc) (hdir : oc.dir = some d) (hfn : oc.filename = some f)
    (hd : d ≠ "") (hf : f ≠ "") (hcliout : cli2.output = none) :
    ((mergeConfig (some c2) cli2).output = some (pathJoin d f)) ∧
    (∀ v, cli.entry = some v → (mergeConfig config cli).entry = some v) ∧
    (cli.entry = none →
      (mergeConfig config cli).entry = config.bind SimplyMCPConfig.entry) ∧
    (∀ v, cli.output = some v → (mergeConfig config cli).output = some v) ∧
    (∀ v, cli.format = some v → (mergeConfig config cli).format = some v) ∧
    (cli.format = none → (mergeConfig config cli).format =
      (config.bind SimplyMCPConfig.output).bind OutputConfig.format) ∧
    (∀ v, cli.minify = some v → (mergeConfig config cli).minify = some v) ∧
    (cli.minify = none → (mergeConfig config cli).minify =
      (config.bind SimplyMCPConfig.bundle).bind BundleSection.minify) ∧
    (∀ v, cli.platform = some v → (mergeConfig config cli).platform = some v) ∧
    (cli.platform = none → (mergeConfig config cli).platform =
      (config.bind SimplyMCPConfig.bundle).bind BundleSection.platform) ∧
    (∀ v, cli.target = some v → (mergeConfig config cli).target = some v) ∧
    (cli.target = none → (mergeConfig config cli).target =
      (config.bind SimplyMCPConfig.bundle).bind BundleSection.target) ∧
    (∀ v, cli.external = some v → (mergeConfig config cli).external = some v) ∧
    (cli.external = none → (mergeConfig config cli).external =
      (config.bind SimplyMCPConfig.bundle).bind BundleSection.external) ∧
    (∀ v, cli.sourcemap = some v → (mergeConfig config cli).sourcemap = some v) ∧
    (cli.sourcemap = none → (mergeConfig config cli).sourcemap =
      (config.bind SimplyMCPConfig.bundle).bind BundleSection.sourcemap) ∧
    (∀ v, cli.autoInstall = some v → (mergeConfig config cli).autoInstall = some v) ∧
    (cli.autoInstall = none →
      (mergeConfig config cli).autoInstall = config.bind SimplyMCPConfig.autoInstall) := by
  have hdb : (d == "") = false := beq_eq_false_iff_ne.mpr hd
  have hfb : (f == "") = false := beq_eq_false_iff_ne.mpr hf
  refine ⟨?_, ?_, ?_, ?_, ?_, ?_, ?_, ?_, ?_, ?_, ?_, ?_, ?_, ?_, ?_, ?_, ?_, ?_⟩
  · simp [mergeConfig, hcliout, hout, hdir, hfn, jsTruthy, hdb, hfb]
  all_goals first
    | (intro v hv; simp [mergeConfig, hv])
    | (intro hv; simp [mergeConfig, hv])

/-- Witness for C9 at concrete inputs: a config with
`output = {dir: "dist", filename: "server.js"}` merged under an empty CLI
yields `"dist/server.js"`, and a defined CLI entry wins over the config
entry. -/
theorem mergeConfig_cli_precedence_witness :
    (mergeConfig (some ⟨some "conf.ts", some ⟨some "dist", some "server.js", none⟩, none, none⟩)
        ⟨none, none, none, none, none, none, none, none, none, none, none, none⟩).output =
      some (pathJoin "dist" "server.js") ∧
    (mergeConfig (some ⟨some "conf.ts", some ⟨some "dist", some "server.js", none⟩, none, none⟩)
        ⟨some "cli.ts", none, none, none, none, none, none, none, none, none, none, none⟩).entry =
      some "cli.ts" := by
  have h := mergeConfig_cli_precedence
    (some ⟨some "conf.ts", some ⟨some "dist", some "server.js", none⟩, none, none⟩)
    ⟨some "cli.ts", none, none, none, none, none, none, none, none, none, none, none⟩
    ⟨some "conf.ts", some ⟨some "dist", some "server.js", none⟩, none, none⟩
    ⟨some "dist", some "server.js", none⟩
    ⟨none, none, none, none, none, none, none, none, none, none, none, none⟩
    "dist" "server.js" rfl rfl rfl (by decide) (by decide) rfl
  exact ⟨h.1, h.2.1 "cli.ts" rfl⟩

/-- C9 counterexample: with the CLI output undefined and the config having
both `output.dir` and `output.filename` present but empty, `mergeConfig`
yields the empty string (via the `dir || filename` fallback), not the path
join of dir and filename, which is `"."`. -/
theorem mergeConfig_join_counterexample :
    (mergeConfig (some ⟨none, some ⟨some "", some "", none⟩, none, none⟩)
        ⟨none, none, none, none, none, none, none, none, none, none, none, none⟩).output =
      some "" ∧
    pathJoin "" "" = "." ∧
    (mergeConfig (some ⟨none, some ⟨some "", some "", none⟩, none, none⟩)
        ⟨none, none, none, none, none, none, none, none, none, none, none, none⟩).output ≠
      some (pathJoin "" "") := by
  refine ⟨rfl, rfl, ?_⟩
  decide

/-- The probe loop finds nothing when no candidate's joined path exists. -/
theorem findConfigFileGo_none (fs : String → Bool) (cwd : String) :
    ∀ l : List String, (∀ c, c ∈ l → fs (pathJoin cwd c) = false) →
      findConfigFileGo fs cwd l = none := by
  intro l
  induction l with
  | nil => intro _; rfl
  | cons c rest ih =>
    intro h
    simp [findConfigFileGo, h c (List.mem_cons_self c rest),
      ih (fun x hx => h x (List.mem_cons_of_mem c hx))]

/-- C10 (amended): `loadConfig` distinguishes an explicit missing config
from no config at all — with an explicit nonempty `configPath` resolving
to a non-existent file it throws `Config file not found` (it does not
return null), while with no `configPath` and none of the eight
conventional candidates existing in the working directory it returns null
without throwing; the candidates are probed in a fixed priority order
starting with `simplemcp.config.js`, which wins whenever it exists. -/
theorem loadConfig_explicit_vs_probe (fs : String → Bool) (cwd p : String)
    (hp : p ≠ "")
    (hmiss : fs (pathResolve cwd p) = false)
    (hnone : ∀ c, c ∈ configCandidates → fs (pathJoin cwd c) = false) :
    loadConfig fs (some p) cwd =
      Except.error ("Config file not found: " ++ pathResolve cwd p) ∧
    loadConfig fs none cwd = Except.ok LoadConfigResult.noConfig ∧
    configCandidates.head? = some "simplemcp.config.js" ∧
    configCandidates.length = 8 ∧
    (∀ fs2 : String → Bool, fs2 (pathJoin cwd "simplemcp.config.js") = true →
      findConfigFile fs2 cwd = some (pathJoin cwd "simplemcp.config.js")) := by
  have hpb : (p == "") = false := beq_eq_false_iff_ne.mpr hp
  have hfind : findConfigFile fs cwd = none :=
    findConfigFileGo_none fs cwd configCandidates hnone
  refine ⟨?_, ?_, rfl, rfl, ?_⟩
  · simp [loadConfig, jsTruthy, hpb, hmiss]
  · simp [loadConfig, jsTruthy, hfind]
  · intro fs2 h2
    simp [findConfigFile, configCandidates, findConfigFileGo, h2]

/-- Witness for C10 at a concrete input: an empty filesystem, under which
the explicit nonempty path errors and the conventional probe returns null. -/
theorem loadConfig_explicit_vs_probe_witness :
    loadConfig (fun _ => false) (some "mcp.config.json") "/proj" =
      Except.error ("Config file not found: " ++ pathResolve "/proj" "mcp.config.json") ∧
    loadConfig (fun _ => false) none "/proj" = Except.ok LoadConfigResult.noConfig :=
  ⟨(loadConfig_explicit_vs_probe (fun _ => false) "/proj" "mcp.config.json"
      (by decide) rfl (fun _ _ => rfl)).1,
   (loadConfig_explicit_vs_probe (fun _ => false) "/proj" "mcp.config.json"
      (by decide) rfl (fun _ _ => rfl)).2.1⟩

/-- C10 counterexample: an explicitly passed empty `configPath` is falsy in
JS, so although it is explicit and resolves (to `cwd` itself) to a path the
filesystem lacks, the source does not throw: it falls back to the candidate
probe and returns null. -/
theorem loadConfig_empty_path_counterexample :
    (fun _ => false : String → Bool) (pathResolve "/proj" "") = false ∧
    loadConfig (fun _ => false) (some "") "/proj" = Except.ok LoadConfigResult.noConfig :=
  ⟨rfl, rfl⟩

end SimpleMCP
